import Mathlib

/-!
Shallow embedding of the fetch-and-normalize core of the FlumeScripts ETL
pipeline.  The definitions below are translated from two source files:

* `src/data_process.py` — the value-coercion / normalization layer
  (`SQLType`, `COLUMNS`, `parse_date`, `clean_value`, and the row loop of
  `process_csv_file`);
* `src/api_fetch.py` — the HTTP wrapper `safe_request`, the per-date
  report fetch loop of `fetch_data_for_date`, and the skip logic of
  `load_all_historical_data`.

Python exceptions are modelled by `Option` (a `none` result of a branch
means the branch raised), stateful loops become explicit state-passing
functions over a finite trace of server responses, and machine integers
are `Nat` / `Int` (no overflow is reachable in the modelled code paths).
-/

/-- Column types of the normalization layer (`class SQLType` in
data_process.py). -/
inductive SQLType
  | STRING
  | BOOL
  | NUMBER
  | DECIMAL
  | DATETIME
deriving DecidableEq, Repr

/-- Raw Python values that reach `clean_value`.  Values read from the CSV
files are strings (or `None` via `csv.DictReader` restval); the spec's
test vectors additionally feed native booleans, and the function accepts
arbitrary Python objects, of which native ints are the representative
non-string, non-bool case.  Python floats and datetime objects are not
modelled: no modelled caller produces them. -/
inductive RawValue
  | none
  | str (s : String)
  | bool (b : Bool)
  | int (n : Int)
deriving DecidableEq, Repr

/-- Characters that Python `str.strip()` removes (ASCII whitespace; exotic
Unicode whitespace is not modelled). -/
def trimChars (l : List Char) : List Char :=
  ((l.dropWhile Char.isWhitespace).reverse.dropWhile Char.isWhitespace).reverse

/-- Value of a digit string, most significant digit first. -/
def digitsVal (l : List Char) : Nat :=
  l.foldl (fun a c => a * 10 + (c.toNat - 48)) 0

/-- Parse a nonempty all-digit character list. -/
def digitsToNatOpt (l : List Char) : Option Nat :=
  if l ≠ [] ∧ l.all Char.isDigit then Option.some (digitsVal l) else Option.none

/-- Python `str.split(c)` on a single separator character: consecutive
separators yield empty groups, the result is never the empty list. -/
def splitOnChar (c : Char) : List Char → List (List Char)
  | [] => [[]]
  | x :: rest =>
    if x = c then [] :: splitOnChar c rest
    else
      match splitOnChar c rest with
      | g :: gs => (x :: g) :: gs
      | [] => [[x]]

/-- Python `" ".join` on character lists. -/
def joinSpaces : List (List Char) → List Char
  | [] => []
  | [g] => g
  | g :: gs => g ++ ' ' :: joinSpaces gs

/-- Python `str(value)` for the modelled raw values. -/
def pythonStr : RawValue → String
  | RawValue.none => "None"
  | RawValue.str s => s
  | RawValue.bool true => "True"
  | RawValue.bool false => "False"
  | RawValue.int n => toString n

/-- The emptiness test of clean_value (data_process.py line 139):
`value is None or len(str(value).strip()) == 0`.  For native booleans and
ints `str(value)` is `True`/`False` or a decimal numeral, never
whitespace-only, so the test is false for those. -/
def isEmptyParam : RawValue → Bool
  | RawValue.none => true
  | RawValue.str s => (trimChars s.data).isEmpty
  | RawValue.bool _ => false
  | RawValue.int _ => false

/-- Python `int(str)`: strips whitespace, optional sign, decimal digits.
Underscore digit grouping of Python numeric literals is not modelled. -/
def parsePyInt (s : String) : Option Int :=
  match trimChars s.data with
  | [] => Option.none
  | '+' :: ds => (digitsToNatOpt ds).map Int.ofNat
  | '-' :: ds => (digitsToNatOpt ds).map (fun n => -(n : Int))
  | ds => (digitsToNatOpt ds).map Int.ofNat

/-- Mantissa of a decimal literal: `digits`, `digits.`, `digits.digits`
or `.digits`, valued exactly as a rational. -/
def parseDecMantissa (l : List Char) : Option ℚ :=
  match l.span (fun c => c ≠ '.') with
  | (ip, []) =>
    if ip ≠ [] ∧ ip.all Char.isDigit then Option.some (digitsVal ip : ℚ) else Option.none
  | (ip, _ :: fp) =>
    if (ip ≠ [] ∨ fp ≠ []) ∧ ip.all Char.isDigit ∧ fp.all Char.isDigit then
      Option.some ((digitsVal ip : ℚ) + (digitsVal fp : ℚ) / (10 : ℚ) ^ fp.length)
    else Option.none

/-- Signed exponent of a decimal literal. -/
def parseSignedExp (l : List Char) : Option Int :=
  match l with
  | '+' :: ds => (digitsToNatOpt ds).map Int.ofNat
  | '-' :: ds => (digitsToNatOpt ds).map (fun n => -(n : Int))
  | ds => (digitsToNatOpt ds).map Int.ofNat

/-- Unsigned decimal literal with optional exponent part. -/
def parseDecMag (l : List Char) : Option ℚ :=
  match l.span (fun c => c ≠ 'e' ∧ c ≠ 'E') with
  | (mant, []) => parseDecMantissa mant
  | (mant, _ :: ex) =>
    match parseDecMantissa mant, parseSignedExp ex with
    | Option.some m, Option.some e => Option.some (m * (10 : ℚ) ^ e)
    | _, _ => Option.none

/-- Python `decimal.Decimal(str)`: exact arbitrary-precision decimal
parsing — a sign, digits with an optional fractional part, an optional
exponent, surrounding whitespace allowed.  The special values
`Infinity`/`NaN` are not modelled (they never appear in the data).  The
result is the exact rational value of the literal. -/
def parseDecimal (s : String) : Option ℚ :=
  match trimChars s.data with
  | [] => Option.none
  | '+' :: ds => parseDecMag ds
  | '-' :: ds => (parseDecMag ds).map Neg.neg
  | ds => parseDecMag ds

/-- Result of `datetime.strptime` with format `%m/%d/%Y %H:%M:%S` plus the
timezone name attached by `parse_date`. -/
structure PyDateTime where
  year : Nat
  month : Nat
  day : Nat
  hour : Nat
  minute : Nat
  second : Nat
  tz : String
deriving DecidableEq, Repr

def isLeapYear (y : Nat) : Bool :=
  (y % 4 = 0 && y % 100 ≠ 0) || (y % 400 = 0)

def daysInMonth (y m : Nat) : Nat :=
  if m = 2 then (if isLeapYear y then 29 else 28)
  else if m = 4 ∨ m = 6 ∨ m = 9 ∨ m = 11 then 30
  else 31

/-- Parse one numeric field of a strptime format directive: at most
`maxLen` digits, value within `lo..hi`. -/
def parseField (l : List Char) (lo hi maxLen : Nat) : Option Nat :=
  if l.length ≤ maxLen then
    match digitsToNatOpt l with
    | Option.some n => if lo ≤ n ∧ n ≤ hi then Option.some n else Option.none
    | Option.none => Option.none
  else Option.none

/-- `datetime.strptime(s, DATETIME_FORMAT)` for
`DATETIME_FORMAT = "%m/%d/%Y %H:%M:%S"` (data_process.py line 41), with
day-of-month validation against the month and leap years. -/
def strptimeMDY (l : List Char) : Option (Nat × Nat × Nat × Nat × Nat × Nat) :=
  match splitOnChar ' ' l with
  | [d, t] =>
    match splitOnChar '/' d, splitOnChar ':' t with
    | [ms, ds, ys], [hs, mins, ss] =>
      match parseField ms 1 12 2, parseField ds 1 31 2, parseField ys 0 9999 4,
            parseField hs 0 23 2, parseField mins 0 59 2, parseField ss 0 59 2 with
      | Option.some m, Option.some dd, Option.some y,
        Option.some h, Option.some mi, Option.some sec =>
        if dd ≤ daysInMonth y m then Option.some (m, dd, y, h, mi, sec) else Option.none
      | _, _, _, _, _, _ => Option.none
    | _, _ => Option.none
  | _ => Option.none

/-- Finite stand-in for the external pytz timezone-name database: these
are the zone names the modelled inputs use; `pytz.timezone` on a name
outside the database raises, which `parse_date` turns into `None`. -/
def validZones : List String := ["UTC", "GMT", "CET", "Europe/Berlin", "US/Eastern", "America/New_York"]

/-- Translation of `parse_date` (data_process.py lines 115-132): split on
single spaces, take the last token as the timezone name, parse the rest
with the fixed format, attach the zone; every failure is caught inside
the function and yields `None`. -/
def parse_date (s : String) : Option PyDateTime :=
  if s.data = [] ∨ trimChars s.data = [] then Option.none
  else
    let parts := splitOnChar ' ' s.data
    match parts.getLast? with
    | Option.none => Option.none
    | Option.some tzTok =>
      match strptimeMDY (joinSpaces parts.dropLast) with
      | Option.none => Option.none
      | Option.some (m, d, y, h, mi, sec) =>
        if validZones.contains (String.mk tzTok) then
          Option.some ⟨y, m, d, h, mi, sec, String.mk tzTok⟩
        else Option.none

/-- Typed values of the five semantic column types; `null` is Python
`None`. -/
inductive TypedValue
  | null
  | str (s : String)
  | bool (b : Bool)
  | int (n : Int)
  | dec (q : ℚ)
  | dt (d : PyDateTime)
deriving DecidableEq, Repr

/-- The lowercase truthy strings of the boolean branch of `clean_value`
(data_process.py line 151). -/
def truthyStrings : List (List Char) :=
  ["true".data, "t".data, "yes".data, "y".data, "1".data]

/-- Python `value.lower() in ('true', 't', 'yes', 'y', '1')`. -/
def isTruthyStr (s : String) : Bool :=
  truthyStrings.contains (s.data.map Char.toLower)

/-- Type-specific coercion body of `clean_value` (data_process.py lines
143-163); `none` means the Python branch raised an exception.  Branches:
STRING is `str(value)`; BOOL returns native booleans, tests strings
against the truthy set, and applies Python truthiness `bool(value)` to
everything else; NUMBER is `int(value)`; DECIMAL is
`float(Decimal(value))` — the `Decimal` parse is exact and `float` of a
`Decimal` is correctly rounded, so the value is retained here as the
exact rational; DATETIME delegates to `parse_date`, which catches its own
failures (including the `AttributeError` from calling `.split` on a
non-string) and returns `None`. -/
def coerceTyped (ct : SQLType) (v : RawValue) : Option TypedValue :=
  match ct with
  | SQLType.STRING => Option.some (TypedValue.str (pythonStr v))
  | SQLType.BOOL =>
    match v with
    | RawValue.bool b => Option.some (TypedValue.bool b)
    | RawValue.str s => Option.some (TypedValue.bool (isTruthyStr s))
    | RawValue.int n => Option.some (TypedValue.bool (decide (n ≠ 0)))
    | RawValue.none => Option.some (TypedValue.bool false)
  | SQLType.NUMBER =>
    match v with
    | RawValue.int n => Option.some (TypedValue.int n)
    | RawValue.bool b => Option.some (TypedValue.int (if b then 1 else 0))
    | RawValue.str s => (parsePyInt s).map TypedValue.int
    | RawValue.none => Option.none
  | SQLType.DECIMAL =>
    match v with
    | RawValue.int n => Option.some (TypedValue.dec (n : ℚ))
    | RawValue.bool b => Option.some (TypedValue.dec (if b then 1 else 0))
    | RawValue.str s => (parseDecimal s).map TypedValue.dec
    | RawValue.none => Option.none
  | SQLType.DATETIME =>
    match v with
    | RawValue.str s =>
      Option.some (match parse_date s with
        | Option.some d => TypedValue.dt d
        | Option.none => TypedValue.null)
    | _ => Option.some TypedValue.null

/-- The type-appropriate defaults of the error handler of `clean_value`
(data_process.py lines 169-182). -/
def defaultFor : SQLType → TypedValue
  | SQLType.STRING => TypedValue.str ""
  | SQLType.BOOL => TypedValue.bool false
  | SQLType.NUMBER => TypedValue.int 0
  | SQLType.DECIMAL => TypedValue.dec 0
  | SQLType.DATETIME => TypedValue.null

/-- The per-table column schemas (`COLUMNS` in data_process.py lines
53-112), in declaration order. -/
def COLUMNS : List (String × List (String × SQLType)) :=
  [("orders",
    [("plenty_id", SQLType.STRING),
     ("o_id", SQLType.STRING),
     ("o_plenty_id", SQLType.STRING),
     ("o_origin_order_id", SQLType.STRING),
     ("os_id", SQLType.STRING),
     ("o_referrer", SQLType.DECIMAL),
     ("o_global_referrer", SQLType.DECIMAL),
     ("o_type", SQLType.STRING),
     ("o_is_main_order", SQLType.BOOL),
     ("o_is_net", SQLType.BOOL),
     ("o_is_b2b", SQLType.BOOL),
     ("ac_id", SQLType.STRING),
     ("o_payment_status", SQLType.NUMBER),
     ("o_invoice_postal_code", SQLType.STRING),
     ("o_invoice_town", SQLType.STRING),
     ("o_invoice_country", SQLType.STRING),
     ("o_delivery_postal_code", SQLType.STRING),
     ("o_delivery_town", SQLType.STRING),
     ("o_delivery_country", SQLType.STRING),
     ("o_shipping_profile", SQLType.NUMBER),
     ("o_parcel_service", SQLType.NUMBER),
     ("smw_id", SQLType.STRING),
     ("smw_country", SQLType.STRING),
     ("smw_postal_code", SQLType.STRING),
     ("o_shipping_provider", SQLType.STRING),
     ("o_entry_at", SQLType.DATETIME),
     ("o_created_at", SQLType.DATETIME),
     ("o_goods_issue_at", SQLType.DATETIME),
     ("o_paid_at", SQLType.DATETIME),
     ("o_updated_at", SQLType.DATETIME)]),
   ("orderItems",
    [("plenty_id", SQLType.STRING),
     ("oi_id", SQLType.STRING),
     ("o_id", SQLType.STRING),
     ("iv_id", SQLType.STRING),
     ("i_id", SQLType.STRING),
     ("oi_quantity", SQLType.DECIMAL),
     ("oi_type_id", SQLType.NUMBER),
     ("smw_id", SQLType.STRING),
     ("oi_updated_at", SQLType.DATETIME),
     ("o_created_at", SQLType.DATETIME),
     ("o_updated_at", SQLType.DATETIME)]),
   ("orderItemAmounts",
    [("plenty_id", SQLType.STRING),
     ("oia_id", SQLType.STRING),
     ("oi_id", SQLType.STRING),
     ("oia_is_system_currency", SQLType.BOOL),
     ("oi_price_gross", SQLType.DECIMAL),
     ("oi_price_net", SQLType.DECIMAL),
     ("oi_price_currency", SQLType.STRING),
     ("oi_exchange_rate", SQLType.DECIMAL),
     ("oi_purchase_price", SQLType.DECIMAL),
     ("oi_updated_at", SQLType.DATETIME),
     ("o_created_at", SQLType.DATETIME)]),]

/-- Python `COLUMNS[type_name][key]`: `none` models the `KeyError` when
the table or the column is not declared. -/
def lookupColumn (t k : String) : Option SQLType :=
  (COLUMNS.lookup t).bind (fun cols => cols.lookup k)

/-- Translation of `clean_value` (data_process.py lines 135-184).  The
outer `try` first tests for empty parameters, then looks up the column
type and coerces; on any exception the handler looks the column type up
again and returns the type default, and when that second lookup itself
raises (unknown table or column — the very exception that aborted the
`try` block) the final bare `except` returns `None`.  The function is
total by construction, which is the never-raises contract. -/
def clean_value (t k : String) (v : RawValue) : TypedValue :=
  if isEmptyParam v then TypedValue.null
  else
    match lookupColumn t k with
    | Option.none => TypedValue.null
    | Option.some ct =>
      match coerceTyped ct v with
      | Option.some tv => tv
      | Option.none => defaultFor ct

/-- Declared columns of a table, in declaration order. -/
def tableColumns (t : String) : List (String × SQLType) :=
  (COLUMNS.lookup t).getD []

/-- The row loop of `process_csv_file` (data_process.py lines 219-228):
for every key declared in the table schema, coerce the raw field when the
source row has it and fill `None` otherwise. -/
def processRow (t : String) (row : List (String × RawValue)) : List (String × TypedValue) :=
  (tableColumns t).map (fun kc =>
    match row.lookup kc.1 with
    | Option.some v => (kc.1, clean_value t kc.1 v)
    | Option.none => (kc.1, TypedValue.null))

/-- Observable outcome of one attempt of the `safe_request` loop
(api_fetch.py lines 52-105): an HTTP response with its status and the
optional Retry-After header (`Option.some Option.none` = header present
but unparseable by `int(...)`), or one of the exception classes the loop
catches.  Transport-level retries of the underlying session adapter are
below this abstraction: an attempt is what the `try` block observes. -/
inductive Attempt
  | resp (status : Nat) (retryAfter : Option (Option Int))
  | timeout
  | connError
  | exc
deriving DecidableEq, Repr

/-- Result of `safe_request`: the returned response status (`none` is the
sentinel returned when the retries are exhausted) and the sequence of
sleep durations in seconds, in order.  The 1-second entry after a
successful non-429 response is `API_RATE_LIMIT_SLEEP`. -/
structure ReqOutcome where
  response : Option Nat
  sleeps : List Int
deriving DecidableEq, Repr

/-- Wait chosen on a 429 response (api_fetch.py lines 70-76): the parsed
Retry-After header if present and parseable, else the 60-second
default. -/
def retryAfterWait (h : Option (Option Int)) : Int :=
  match h with
  | Option.some (Option.some n) => n
  | _ => 60

/-- The retry loop of `safe_request` (api_fetch.py lines 54-105).  `cur`
is `current_retry`, `i` indexes the attempt stream, and `fuel` is
`retry_count - current_retry`, which strictly decreases on every
non-returning iteration because every such branch increments
`current_retry` — including the 429 branch (line 80).  A timeout or
connection error sleeps `5 * current_retry` after the increment; any
other exception sleeps 10 seconds. -/
def safe_request_go (att : Nat → Attempt) : Nat → Nat → Nat → ReqOutcome
  | _, _, 0 => ⟨Option.none, []⟩
  | cur, i, f + 1 =>
    match att i with
    | Attempt.resp st h =>
      if st = 429 then
        let r := safe_request_go att (cur + 1) (i + 1) f
        ⟨r.response, retryAfterWait h :: r.sleeps⟩
      else ⟨Option.some st, [1]⟩
    | Attempt.timeout =>
      let r := safe_request_go att (cur + 1) (i + 1) f
      ⟨r.response, (5 * ((cur : Int) + 1)) :: r.sleeps⟩
    | Attempt.connError =>
      let r := safe_request_go att (cur + 1) (i + 1) f
      ⟨r.response, (5 * ((cur : Int) + 1)) :: r.sleeps⟩
    | Attempt.exc =>
      let r := safe_request_go att (cur + 1) (i + 1) f
      ⟨r.response, (10 : Int) :: r.sleeps⟩

/-- `safe_request` for a get/post request, over a stream of attempt
outcomes, with the configured retry bound (default 3 in the source). -/
def safe_request (att : Nat → Attempt) (retryCount : Nat) : ReqOutcome :=
  safe_request_go att 0 0 retryCount

/-- Attempt stream whose first three attempts are rate-limited without a
Retry-After header and whose later attempts succeed with status 200. -/
def attEx (i : Nat) : Attempt :=
  if i < 3 then Attempt.resp 429 Option.none else Attempt.resp 200 Option.none

/-- Per-(date, report-type) checkpoint (the `metadata` dict of
api_fetch.py): `pages_processed` and the `completed` flag, absent keys
reading as 0 / False.  The mid-loop latin-1 fallback additionally records
an `encoding` key, which no modelled claim touches. -/
structure Checkpoint where
  pages_processed : Nat
  completed : Bool
deriving DecidableEq, Repr

/-- Server response for one page request of `fetch_data_for_date`
(api_fetch.py lines 466-559): 200 with a body that decodes as UTF-8 or
not (latin-1 decoding of arbitrary bytes always succeeds, so a 200 always
produces a page file), 404, 500, 429, a transport failure (`safe_request`
returned `None`), or an unexpected status handled by the final `else`
branch. -/
inductive Resp
  | ok (utf8ok : Bool)
  | notFound
  | serverEnd
  | rateLimited
  | noResponse
  | other (status : Nat)
deriving DecidableEq, Repr

/-- Loop state of `fetch_data_for_date` for one report type: the next
page to request, the `end_reached` flag, the page files written so far
(page number, latin-1 fallback flag), and the current content of the
metadata file. -/
structure FetchState where
  page : Nat
  endReached : Bool
  files : List (Nat × Bool)
  meta : Option Checkpoint
deriving Repr

/-- Resume logic of api_fetch.py lines 433-444: with a readable
checkpoint whose `pages_processed > 0`, start at `pages_processed + 1`,
otherwise (no checkpoint file, unreadable checkpoint, or
`pages_processed = 0`) start at page 1. -/
def startPage (chk : Option Checkpoint) : Nat :=
  match chk with
  | Option.none => 1
  | Option.some c => if c.pages_processed > 0 then c.pages_processed + 1 else 1

def initState (chk : Option Checkpoint) : FetchState :=
  { page := startPage chk, endReached := false, files := [], meta := chk }

/-- One iteration of the fetch loop (api_fetch.py lines 452-559), given
the response to the request for page `s.page`.  On 200 the page file is
written (latin-1 named variant when UTF-8 fails), the metadata advances
to `pages_processed = page` without a `completed` key, and the page
counter increments.  404 and 500 set `end_reached`.  429 sleeps and
retries the same page.  A missing response sets `end_reached`.  Any other
status advances the page for client errors except 429 or sleeps-and-
retries for server errors, and only this branch applies the `page > 50`
safety check. -/
def stepFetch (s : FetchState) (r : Resp) : FetchState :=
  match r with
  | Resp.ok u =>
    { s with page := s.page + 1,
             files := s.files ++ [(s.page, !u)],
             meta := Option.some ⟨s.page, false⟩ }
  | Resp.notFound => { s with endReached := true }
  | Resp.serverEnd => { s with endReached := true }
  | Resp.rateLimited => s
  | Resp.noResponse => { s with endReached := true }
  | Resp.other st =>
    let page2 := if 400 ≤ st ∧ st < 500 ∧ st ≠ 429 then s.page + 1 else s.page
    { s with page := page2, endReached := s.endReached || decide (50 < page2) }

/-- Run the fetch loop over a finite trace of responses: each iteration
requests page `s.page` and consumes one response; the loop stops when
`end_reached` is set (further responses are never requested).  Returns
the final state and the pages requested, in order. -/
def runFetch : FetchState → List Resp → FetchState × List Nat
  | s, [] => (s, [])
  | s, r :: rs =>
    if s.endReached then (s, [])
    else
      let out := runFetch (stepFetch s r) rs
      (out.1, s.page :: out.2)

/-- Final checkpoint written after the loop (api_fetch.py lines 562-572):
`pages_processed = page - 1` and `completed = true`. -/
def finalizeFetch (s : FetchState) : FetchState :=
  { s with meta := Option.some ⟨s.page - 1, true⟩ }

/-- Consecutive page numbers `p, p+1, ..., p+n-1`. -/
def pageRange : Nat → Nat → List Nat
  | _, 0 => []
  | p, n + 1 => p :: pageRange (p + 1) n

/-- Page files produced by a run of consecutive 200 responses starting at
page `p`, with their latin-1 flags. -/
def okFiles : Nat → List Bool → List (Nat × Bool)
  | _, [] => []
  | p, b :: bs => (p, !b) :: okFiles (p + 1) bs

/-- Metadata content after a run of consecutive 200 responses starting at
page `p` from metadata `m`. -/
def metaAfterOks (p : Nat) (m : Option Checkpoint) : List Bool → Option Checkpoint
  | [] => m
  | _ :: bs => Option.some ⟨p + bs.length, false⟩

/-- The three report types of the daily fetch, in the order both loops
iterate them (api_fetch.py lines 419 and 656). -/
inductive ReportType
  | orderItems
  | orders
  | orderItemAmounts
deriving DecidableEq, Repr

def reportTypes : List ReportType :=
  [ReportType.orderItems, ReportType.orders, ReportType.orderItemAmounts]

/-- On-disk situation of one date directory as observed by
`load_all_historical_data`: whether the directory exists and, per report
type, the readable content of its metadata file (`none` covers both a
missing and an unreadable file). -/
structure DateFS where
  dirExists : Bool
  meta : ReportType → Option Checkpoint

def completedFlag (c : Option Checkpoint) : Bool :=
  match c with
  | Option.some cp => cp.completed
  | Option.none => false

/-- The `date_dir.glob` test of api_fetch.py line 654: the directory
exists and holds at least one metadata file (the fetcher writes exactly
the three per-type metadata files). -/
def hasAnyMetadata (fs : DateFS) : Bool :=
  reportTypes.any (fun rt => (fs.meta rt).isSome)

/-- The `all_complete` scan of api_fetch.py lines 655-670: every report
type has a readable metadata file with `completed = true`. -/
def allComplete (fs : DateFS) : Bool :=
  reportTypes.all (fun rt => completedFlag (fs.meta rt))

/-- Decision of the per-date body of `load_all_historical_data`
(api_fetch.py lines 648-696): `true` iff `fetch_data_for_date` is invoked
for this date — the only place network requests happen. -/
def shouldFetch (processed : List String) (d : String) (fs : DateFS) : Bool :=
  if d ∈ processed then false
  else if fs.dirExists && hasAnyMetadata fs then !(allComplete fs)
  else true

/-- The sequential date loop of `load_all_historical_data`, threading the
`processed_dates` set (dates found already complete are added to it, as
are freshly fetched ones); returns the dates for which
`fetch_data_for_date` was invoked, in order.  The chunking of the date
range into blocks of 10 only inserts pauses and does not affect which
dates are fetched. -/
def runHistorical (processed : List String) : List (String × DateFS) → List String
  | [] => []
  | (d, fs) :: rest =>
    if shouldFetch processed d fs then d :: runHistorical (processed ++ [d]) rest
    else runHistorical (if d ∈ processed then processed else processed ++ [d]) rest

theorem stepFetch_page_mono (s : FetchState) (r : Resp) : s.page ≤ (stepFetch s r).page := by
  cases r with
  | ok u => simp [stepFetch]
  | notFound => exact le_refl _
  | serverEnd => exact le_refl _
  | rateLimited => exact le_refl _
  | noResponse => exact le_refl _
  | other st =>
    simp only [stepFetch]
    split
    · exact Nat.le_succ _
    · exact le_refl _

theorem runFetch_page_le (rs : List Resp) :
    ∀ s : FetchState, ∀ p ∈ (runFetch s rs).2, s.page ≤ p := by
  induction rs with
  | nil => intro s p hp; simp [runFetch] at hp
  | cons r rs ih =>
    intro s p hp
    by_cases he : s.endReached
    · simp [runFetch, he] at hp
    · simp only [runFetch, he, Bool.false_eq_true, if_false] at hp
      rcases List.mem_cons.mp hp with rfl | hp2
      · exact le_refl _
      · exact le_trans (stepFetch_page_mono s r) (ih _ p hp2)

theorem runFetch_oks (bs : List Bool) :
    ∀ (p : Nat) (f : List (Nat × Bool)) (m : Option Checkpoint) (rest : List Resp),
      runFetch ⟨p, false, f, m⟩ (bs.map Resp.ok ++ rest)
        = ((runFetch ⟨p + bs.length, false, f ++ okFiles p bs, metaAfterOks p m bs⟩ rest).1,
           pageRange p bs.length
             ++ (runFetch ⟨p + bs.length, false, f ++ okFiles p bs, metaAfterOks p m bs⟩ rest).2) := by
  induction bs with
  | nil =>
    intro p f m rest
    simp [okFiles, metaAfterOks, pageRange]
  | cons b bs ih =>
    intro p f m rest
    have hstep : stepFetch ⟨p, false, f, m⟩ (Resp.ok b)
        = ⟨p + 1, false, f ++ [(p, !b)], Option.some ⟨p, false⟩⟩ := rfl
    have hmeta : metaAfterOks (p + 1) (Option.some ⟨p, false⟩) bs
        = metaAfterOks p m (b :: bs) := by
      cases bs with
      | nil => simp [metaAfterOks]
      | cons c cs => simp [metaAfterOks]; omega
    simp only [List.map_cons, List.cons_append, runFetch, Bool.false_eq_true, if_false, hstep,
      List.append_eq]
    rw [ih (p + 1) (f ++ [(p, !b)]) (Option.some ⟨p, false⟩) rest, hmeta]
    have harith : p + 1 + bs.length = p + (bs.length + 1) := by omega
    have hfiles : (f ++ [(p, !b)]) ++ okFiles (p + 1) bs = f ++ okFiles p (b :: bs) := by
      simp [okFiles]
    simp only [harith, hfiles, List.length_cons, pageRange, List.cons_append]

theorem okFiles_length (bs : List Bool) : ∀ p, (okFiles p bs).length = bs.length := by
  induction bs with
  | nil => intro p; rfl
  | cons b bs ih => intro p; simp [okFiles, ih]

theorem okFiles_map_fst (bs : List Bool) :
    ∀ p, (okFiles p bs).map Prod.fst = pageRange p bs.length := by
  induction bs with
  | nil => intro p; rfl
  | cons b bs ih => intro p; simp [okFiles, pageRange, ih]

theorem pageRange_snoc (n : Nat) : ∀ p, pageRange p n ++ [p + n] = pageRange p (n + 1) := by
  induction n with
  | zero => intro p; simp [pageRange]
  | succ n ih =>
    intro p
    have h : p + (n + 1) = (p + 1) + n := by omega
    simp only [pageRange, List.cons_append, h, ih (p + 1)]

/-- C1: for every (date, report-type) whose checkpoint records
`pages_processed = n > 0`, the next run for that (date, report-type)
issues its first page request for page `n + 1` and never requests pages
`1..n` again in that run; with no checkpoint, or `pages_processed = 0`,
it starts at page 1. -/
theorem resume_starts_after_checkpoint (n : Nat) (hn : 0 < n) (rs : List Resp) (hrs : rs ≠ []) :
    (runFetch (initState (Option.some ⟨n, false⟩)) rs).2.head? = Option.some (n + 1)
    ∧ (∀ p ∈ (runFetch (initState (Option.some ⟨n, false⟩)) rs).2, n + 1 ≤ p)
    ∧ (runFetch (initState Option.none) rs).2.head? = Option.some 1
    ∧ (runFetch (initState (Option.some ⟨0, false⟩)) rs).2.head? = Option.some 1 := by
  obtain ⟨r, rs', rfl⟩ := List.exists_cons_of_ne_nil hrs
  refine ⟨?_, ?_, ?_, ?_⟩
  · simp [runFetch, initState, startPage, hn]
  · intro p hp
    have h2 := runFetch_page_le (r :: rs') (initState (Option.some ⟨n, false⟩)) p hp
    simpa [initState, startPage, hn] using h2
  · simp [runFetch, initState, startPage]
  · simp [runFetch, initState, startPage]

theorem resume_starts_after_checkpoint_witness :
    0 < 5 ∧ ([Resp.notFound] : List Resp) ≠ []
    ∧ (runFetch (initState (Option.some ⟨5, false⟩)) [Resp.notFound]).2.head? = Option.some 6
    ∧ ∀ p ∈ (runFetch (initState (Option.some ⟨5, false⟩)) [Resp.notFound]).2, 6 ≤ p := by
  have h := resume_starts_after_checkpoint 5 (by decide) [Resp.notFound] (by decide)
  exact ⟨by decide, by decide, h.1, h.2.1⟩

/-- C2: for every fresh fetch of a (date, report-type) in which pages
`1..k` return 200 (with any decode outcome) and page `k + 1` returns 404
or 500, the loop terminates treating that status as end-of-sequence,
exactly `k` page files (pages `1..k`) are written, and the final
checkpoint records `completed = true` and `pages_processed = k`. -/
theorem fresh_fetch_end_of_sequence (k : Nat) (bs : List Bool) (hk : bs.length = k)
    (term : Resp) (hterm : term = Resp.notFound ∨ term = Resp.serverEnd) :
    (runFetch (initState Option.none) (bs.map Resp.ok ++ [term])).1.endReached = true
    ∧ (finalizeFetch (runFetch (initState Option.none) (bs.map Resp.ok ++ [term])).1).meta
        = Option.some ⟨k, true⟩
    ∧ (runFetch (initState Option.none) (bs.map Resp.ok ++ [term])).1.files.length = k
    ∧ (runFetch (initState Option.none) (bs.map Resp.ok ++ [term])).1.files.map Prod.fst
        = pageRange 1 k
    ∧ (runFetch (initState Option.none) (bs.map Resp.ok ++ [term])).2 = pageRange 1 (k + 1) := by
  subst hk
  have h0 : initState Option.none = ⟨1, false, [], Option.none⟩ := rfl
  rw [h0, runFetch_oks bs 1 [] Option.none [term]]
  have hend : stepFetch ⟨1 + bs.length, false, [] ++ okFiles 1 bs, metaAfterOks 1 Option.none bs⟩ term
      = { page := 1 + bs.length, endReached := true, files := [] ++ okFiles 1 bs,
          meta := metaAfterOks 1 Option.none bs } := by
    rcases hterm with rfl | rfl <;> rfl
  simp only [runFetch, Bool.false_eq_true, if_false, hend]
  refine ⟨?_, ?_, ?_, ?_, ?_⟩
  · trivial
  · simp [finalizeFetch]
  · simp [okFiles_length]
  · simp [okFiles_map_fst]
  · simp [pageRange_snoc]

theorem fresh_fetch_end_of_sequence_witness :
    ([true, true, true] : List Bool).length = 3
    ∧ (Resp.notFound = Resp.notFound ∨ Resp.notFound = Resp.serverEnd)
    ∧ (finalizeFetch
        (runFetch (initState Option.none) ([true, true, true].map Resp.ok ++ [Resp.notFound])).1).meta
        = Option.some ⟨3, true⟩
    ∧ (runFetch (initState Option.none) ([true, true, true].map Resp.ok ++ [Resp.notFound])).1.files.length = 3
    ∧ (runFetch (initState Option.none) ([true, true, true].map Resp.ok ++ [Resp.notFound])).2
        = pageRange 1 4 := by
  have h := fresh_fetch_end_of_sequence 3 [true, true, true] (by decide) Resp.notFound (Or.inl rfl)
  exact ⟨by decide, Or.inl rfl, h.2.1, h.2.2.1, h.2.2.2.2⟩

/-- C5 counterexample: the claim that a single fetch never requests a
page number above the safety ceiling of 50 regardless of the server's
responses is false: a fresh fetch receiving only 200 responses requests
page 51 (and beyond), because the `page > 50` check sits only in the
unexpected-status branch of the loop. -/
theorem safety_valve_bypassed_by_200s :
    51 ∈ (runFetch (initState Option.none) (List.replicate 60 (Resp.ok true))).2 ∧ 50 < 51 := by
  exact ⟨by decide, by decide⟩

theorem runFetch_other_bounded (rs : List Resp) :
    ∀ s : FetchState, (s.endReached = false → s.page ≤ 50) →
      (∀ r ∈ rs, (∃ st, r = Resp.other st) ∨ r = Resp.rateLimited) →
      ∀ p ∈ (runFetch s rs).2, p ≤ 50 := by
  induction rs with
  | nil => intro s _ _ p hp; simp [runFetch] at hp
  | cons r rs ih =>
    intro s hs hr p hp
    by_cases he : s.endReached
    · simp [runFetch, he] at hp
    · simp only [runFetch, he, Bool.false_eq_true, if_false] at hp
      rcases List.mem_cons.mp hp with rfl | hp2
      · exact hs (by simpa using he)
      · refine ih (stepFetch s r) ?_ (fun r2 h2 => hr r2 (List.mem_cons_of_mem _ h2)) p hp2
        rcases hr r (List.mem_cons_self _ _) with ⟨st, rfl⟩ | rfl
        · intro hend
          simp only [stepFetch, Bool.or_eq_false_iff, decide_eq_false_iff_not, not_lt] at hend
          exact hend.2
        · intro hend
          exact hs (by simpa [stepFetch] using hend)

/-- C5 (amended): the `page > 50` safety valve is applied only in the
unexpected-status branch of the fetch loop, so a fresh fetch whose
responses are all unexpected statuses (or 429) never requests a page
number above 50; a sequence of 200 responses advances the page counter
without any ceiling check (see the counterexample). -/
theorem safety_valve_only_unexpected_branch (rs : List Resp)
    (h : ∀ r ∈ rs, (∃ st, r = Resp.other st) ∨ r = Resp.rateLimited) :
    ∀ p ∈ (runFetch (initState Option.none) rs).2, p ≤ 50 := by
  exact runFetch_other_bounded rs (initState Option.none) (fun _ => by decide) h

theorem safety_valve_only_unexpected_branch_witness :
    (∀ r ∈ ([Resp.other 403, Resp.rateLimited, Resp.other 503] : List Resp),
      (∃ st, r = Resp.other st) ∨ r = Resp.rateLimited)
    ∧ ∀ p ∈ (runFetch (initState Option.none) [Resp.other 403, Resp.rateLimited, Resp.other 503]).2,
        p ≤ 50 := by
  have hh : ∀ r ∈ ([Resp.other 403, Resp.rateLimited, Resp.other 503] : List Resp),
      (∃ st, r = Resp.other st) ∨ r = Resp.rateLimited := by
    intro r hr
    rcases List.mem_cons.mp hr with rfl | hr
    · exact Or.inl ⟨403, rfl⟩
    rcases List.mem_cons.mp hr with rfl | hr
    · exact Or.inr rfl
    rcases List.mem_cons.mp hr with rfl | hr
    · exact Or.inl ⟨503, rfl⟩
    · simp at hr
  exact ⟨hh, safety_valve_only_unexpected_branch _ hh⟩

/-- C6 counterexample: 429 retries do count toward the configured retry
bound.  With three consecutive 429 responses and the default bound of 3,
`safe_request` returns the sentinel failure even though the very next
attempt would have returned 200 — one extra unit of budget reaches it —
each 429 having slept the 60-second default. -/
theorem rate_limit_retries_count_toward_bound :
    (safe_request attEx 3).response = Option.none
    ∧ attEx 3 = Attempt.resp 200 Option.none
    ∧ (safe_request attEx 4).response = Option.some 200
    ∧ (safe_request attEx 3).sleeps = [60, 60, 60] := by
  exact ⟨by decide, by decide, by decide, by decide⟩

theorem safe_request_go_all429 (att : Nat → Attempt) :
    ∀ (f i cur : Nat), (∀ j, i ≤ j → j < i + f → ∃ hj, att j = Attempt.resp 429 hj) →
      (safe_request_go att cur i f).response = Option.none := by
  intro f
  induction f with
  | zero => intro i cur _; rfl
  | succ f ih =>
    intro i cur hall
    obtain ⟨hj, hatt⟩ := hall i (le_refl i) (by omega)
    simp only [safe_request_go, hatt, if_pos rfl]
    exact ih (i + 1) (cur + 1) (fun j hj1 hj2 => hall j (by omega) (by omega))

/-- C6 (amended): on a 429 response, `safe_request` sleeps for the parsed
Retry-After value when the header is present and parseable (else the
60-second default) and then retries the same request — but each such
retry increments the retry counter, so 429 retries DO count toward the
configured bound: `retry_count` consecutive 429 responses exhaust it and
the sentinel failure is returned. -/
theorem rate_limit_sleep_and_retry (att : Nat → Attempt) :
    (∀ cur i f h, att i = Attempt.resp 429 h →
      safe_request_go att cur i (f + 1)
        = ⟨(safe_request_go att (cur + 1) (i + 1) f).response,
           retryAfterWait h :: (safe_request_go att (cur + 1) (i + 1) f).sleeps⟩)
    ∧ (∀ n, (∀ j, j < n → ∃ hj, att j = Attempt.resp 429 hj) →
        (safe_request att n).response = Option.none) := by
  constructor
  · intro cur i f h hatt
    simp [safe_request_go, hatt]
  · intro n hall
    exact safe_request_go_all429 att n 0 0 (fun j hj1 hj2 => hall j (by omega))

/-- Attempt stream that is rate-limited on every attempt, with a
parseable 30-second Retry-After header. -/
def att429 (_ : Nat) : Attempt := Attempt.resp 429 (Option.some (Option.some 30))

theorem rate_limit_sleep_and_retry_witness :
    att429 0 = Attempt.resp 429 (Option.some (Option.some 30))
    ∧ safe_request_go att429 0 0 1
        = ⟨(safe_request_go att429 1 1 0).response,
           retryAfterWait (Option.some (Option.some 30)) :: (safe_request_go att429 1 1 0).sleeps⟩
    ∧ retryAfterWait (Option.some (Option.some 30)) = 30
    ∧ (safe_request att429 2).response = Option.none := by
  have h := rate_limit_sleep_and_retry att429
  exact ⟨rfl, h.1 0 0 0 (Option.some (Option.some 30)) rfl, rfl,
    h.2 2 (fun j hj => ⟨Option.some (Option.some 30), rfl⟩)⟩

theorem completedFlag_isSome (c : Option Checkpoint) (h : completedFlag c = true) : c.isSome := by
  cases c with
  | none => simp [completedFlag] at h
  | some cp => rfl

theorem allComplete_hasAnyMetadata (fs : DateFS) (h : allComplete fs = true) :
    hasAnyMetadata fs = true := by
  simp only [allComplete, reportTypes, List.all_cons, List.all_nil, Bool.and_true,
    Bool.and_eq_true] at h
  simp only [hasAnyMetadata, reportTypes, List.any_cons, List.any_nil, Bool.or_false,
    Bool.or_eq_true]
  exact Or.inl (completedFlag_isSome _ h.1)

theorem shouldFetch_false (processed : List String) (d : String) (fs : DateFS)
    (h : d ∈ processed ∨ (fs.dirExists = true ∧ allComplete fs = true)) :
    shouldFetch processed d fs = false := by
  rcases h with h | ⟨h1, h2⟩
  · simp [shouldFetch, h]
  · by_cases hd : d ∈ processed
    · simp [shouldFetch, hd]
    · simp [shouldFetch, hd, h1, allComplete_hasAnyMetadata fs h2, h2]

/-- C7: re-running the historical fetch over a date range in which every
date is already in `processed_dates`, or has all three report-type
metadata files recording `completed = true` (in an existing date
directory), invokes `fetch_data_for_date` — the only source of network
requests — on no date at all. -/
theorem historical_rerun_no_fetches (processed : List String) (dates : List (String × DateFS))
    (h : ∀ dfs ∈ dates, dfs.1 ∈ processed ∨ (dfs.2.dirExists = true ∧ allComplete dfs.2 = true)) :
    runHistorical processed dates = [] := by
  induction dates generalizing processed with
  | nil => rfl
  | cons dfs rest ih =>
    obtain ⟨d, fs⟩ := dfs
    have hd := h (d, fs) (List.mem_cons_self _ _)
    rw [runHistorical, shouldFetch_false processed d fs hd]
    simp only [Bool.false_eq_true, if_false]
    split
    · exact ih processed (fun x hx => h x (List.mem_cons_of_mem _ hx))
    · refine ih (processed ++ [d]) (fun x hx => ?_)
      rcases h x (List.mem_cons_of_mem _ hx) with h1 | h2
      · exact Or.inl (List.mem_append_left _ h1)
      · exact Or.inr h2

/-- Date directory in which all three report types record a completed
checkpoint. -/
def fsComplete : DateFS := ⟨true, fun _ => Option.some ⟨3, true⟩⟩

theorem historical_rerun_no_fetches_witness :
    (∀ dfs ∈ ([("2024-03-01", fsComplete), ("2024-03-02", fsComplete)] : List (String × DateFS)),
      dfs.1 ∈ ["2024-03-01"] ∨ (dfs.2.dirExists = true ∧ allComplete dfs.2 = true))
    ∧ runHistorical ["2024-03-01"] [("2024-03-01", fsComplete), ("2024-03-02", fsComplete)] = [] := by
  have hh : ∀ dfs ∈ ([("2024-03-01", fsComplete), ("2024-03-02", fsComplete)] : List (String × DateFS)),
      dfs.1 ∈ ["2024-03-01"] ∨ (dfs.2.dirExists = true ∧ allComplete dfs.2 = true) := by
    intro dfs hmem
    rcases List.mem_cons.mp hmem with rfl | hmem
    · exact Or.inl (by decide)
    rcases List.mem_cons.mp hmem with rfl | hmem
    · exact Or.inr ⟨rfl, rfl⟩
    · simp at hmem
  exact ⟨hh, historical_rerun_no_fetches _ _ hh⟩

/-- C3: for every known table, every column declared in its schema, and
every raw input value, `clean_value` is total (it returns a value, never
raising: the Lean translation returns `TypedValue` by construction, every
Python exception path being mapped to a `none` of `coerceTyped` or of the
lookups); an empty or whitespace-only value coerces to null before any
type-specific logic, and a type-specific coercion failure degrades to the
type-appropriate default: empty string, false, 0, 0.0, null. -/
theorem clean_value_total_defaults (t kk : String) (ct : SQLType) (v : RawValue)
    (h : lookupColumn t kk = Option.some ct) :
    (isEmptyParam v = true → clean_value t kk v = TypedValue.null)
    ∧ (isEmptyParam v = false → ∀ tv, coerceTyped ct v = Option.some tv →
        clean_value t kk v = tv)
    ∧ (isEmptyParam v = false → coerceTyped ct v = Option.none →
        clean_value t kk v = defaultFor ct)
    ∧ (defaultFor SQLType.STRING = TypedValue.str ""
       ∧ defaultFor SQLType.BOOL = TypedValue.bool false
       ∧ defaultFor SQLType.NUMBER = TypedValue.int 0
       ∧ defaultFor SQLType.DECIMAL = TypedValue.dec 0
       ∧ defaultFor SQLType.DATETIME = TypedValue.null) := by
  refine ⟨?_, ?_, ?_, rfl, rfl, rfl, rfl, rfl⟩
  · intro he; simp [clean_value, he]
  · intro he tv htv; simp [clean_value, he, h, htv]
  · intro he htv; simp [clean_value, he, h, htv]

theorem clean_value_total_defaults_witness :
    lookupColumn "orders" "o_payment_status" = Option.some SQLType.NUMBER
    ∧ isEmptyParam (RawValue.str "garbage") = false
    ∧ coerceTyped SQLType.NUMBER (RawValue.str "garbage") = Option.none
    ∧ clean_value "orders" "o_payment_status" (RawValue.str "garbage")
        = defaultFor SQLType.NUMBER
    ∧ clean_value "orders" "o_payment_status" (RawValue.str "   ") = TypedValue.null := by
  have h := clean_value_total_defaults "orders" "o_payment_status" SQLType.NUMBER
    (RawValue.str "garbage") (by decide)
  have h2 := clean_value_total_defaults "orders" "o_payment_status" SQLType.NUMBER
    (RawValue.str "   ") (by decide)
  exact ⟨by decide, by decide, by decide, h.2.2.1 (by decide) (by decide), h2.1 (by decide)⟩

theorem lookup_processRow (t : String) (row : List (String × RawValue)) :
    ∀ (cols : List (String × SQLType)) (kk : String),
      kk ∈ cols.map Prod.fst → row.lookup kk = Option.none →
      (cols.map (fun kc =>
        match row.lookup kc.1 with
        | Option.some v => (kc.1, clean_value t kc.1 v)
        | Option.none => (kc.1, TypedValue.null))).lookup kk = Option.some TypedValue.null := by
  intro cols
  induction cols with
  | nil => intro kk hmem _; simp at hmem
  | cons kc cols ih =>
    intro kk hmem hrow
    rw [List.map_cons] at hmem
    simp only [List.map_cons]
    by_cases hk : kk = kc.1
    · subst hk
      rw [hrow]
      simp [List.lookup]
    · have hmem2 : kk ∈ cols.map Prod.fst := by
        rcases List.mem_cons.mp hmem with h1 | h1
        · exact absurd h1 hk
        · exact h1
      have hbeq : (kk == kc.1) = false := by
        simp [hk]
      rcases hrl : row.lookup kc.1 with _ | v <;>
        · simp only [List.lookup, hbeq]
          exact ih kk hmem2 hrow

/-- C4: for every table schema and every raw input row, the typed row
produced by the row loop of `process_csv_file` contains every column
declared in that table's schema, in declaration order, with null standing
in for source fields absent from the raw record — no declared column is
ever omitted. -/
theorem processRow_all_columns (t : String) (row : List (String × RawValue)) :
    (processRow t row).map Prod.fst = (tableColumns t).map Prod.fst
    ∧ (∀ kk, kk ∈ (tableColumns t).map Prod.fst → row.lookup kk = Option.none →
        (processRow t row).lookup kk = Option.some TypedValue.null) := by
  constructor
  · rw [processRow, List.map_map]
    refine List.map_congr_left (fun kc _ => ?_)
    rcases hrl : row.lookup kc.1 with _ | v <;> simp [Function.comp, hrl]
  · intro kk hmem hrow
    exact lookup_processRow t row (tableColumns t) kk hmem hrow

theorem processRow_all_columns_witness :
    ("plenty_id" ∈ (tableColumns "orderItems").map Prod.fst)
    ∧ (([("o_id", RawValue.str "7")] : List (String × RawValue)).lookup "plenty_id" = Option.none)
    ∧ (processRow "orderItems" [("o_id", RawValue.str "7")]).map Prod.fst
        = (tableColumns "orderItems").map Prod.fst
    ∧ (processRow "orderItems" [("o_id", RawValue.str "7")]).lookup "plenty_id"
        = Option.some TypedValue.null := by
  have h := processRow_all_columns "orderItems" [("o_id", RawValue.str "7")]
  exact ⟨by decide, by decide, h.1, h.2 "plenty_id" (by decide) (by decide)⟩

/-- C8: decimal coercion parses the raw string through the exact
arbitrary-precision decimal representation first (`Decimal(value)`) and
only then narrows with `float(...)`, which is correctly rounded; the
pre-narrowing value of `"12.340"` is exactly 12.34, so the coerced value
equals 12.34 within any floating-point tolerance. -/
theorem decimal_parses_exact :
    (∃ q : ℚ, clean_value "orders" "o_referrer" (RawValue.str "12.340") = TypedValue.dec q
      ∧ |q - 1234 / 100| < 1 / 1000000)
    ∧ (∀ s q, parseDecimal s = Option.some q →
        coerceTyped SQLType.DECIMAL (RawValue.str s) = Option.some (TypedValue.dec q)) := by
  constructor
  · refine ⟨((12 : ℕ) : ℚ) + ((340 : ℕ) : ℚ) / (10 : ℚ) ^ (3 : ℕ), rfl, by norm_num⟩
  · intro s q hpq
    simp [coerceTyped, hpq]

theorem decimal_parses_exact_witness :
    coerceTyped SQLType.DECIMAL (RawValue.str "12.340")
      = Option.some (TypedValue.dec (((12 : ℕ) : ℚ) + ((340 : ℕ) : ℚ) / (10 : ℚ) ^ (3 : ℕ))) :=
  decimal_parses_exact.2 "12.340" _ rfl

/-- C9 counterexample: the claim that every input other than native
booleans and the truthy strings coerces to false is refuted by the
`bool(value)` fallback of the boolean branch: the native integer 5 on a
boolean column coerces to true, not false. -/
theorem bool_truthy_int_counterexample :
    clean_value "orders" "o_is_main_order" (RawValue.int 5) = TypedValue.bool true
    ∧ ¬ clean_value "orders" "o_is_main_order" (RawValue.int 5) = TypedValue.bool false := by
  exact ⟨by decide, by decide⟩

/-- C9 (amended): on a boolean column, native booleans map to themselves;
non-empty strings map to true exactly when their lowercase form is in the
set true, t, yes, y, 1 and to false otherwise; other non-string inputs go
through Python truthiness `bool(value)` — in particular a nonzero integer
maps to true, not false; and an empty or whitespace-only input coerces to
null first. -/
theorem bool_coercion_truthiness (t kk : String) (h : lookupColumn t kk = Option.some SQLType.BOOL) :
    (∀ b, clean_value t kk (RawValue.bool b) = TypedValue.bool b)
    ∧ (∀ s, (trimChars s.data).isEmpty = false →
        clean_value t kk (RawValue.str s) = TypedValue.bool (isTruthyStr s))
    ∧ (∀ s, (trimChars s.data).isEmpty = true →
        clean_value t kk (RawValue.str s) = TypedValue.null)
    ∧ (∀ n : Int, clean_value t kk (RawValue.int n) = TypedValue.bool (decide (n ≠ 0)))
    ∧ clean_value t kk RawValue.none = TypedValue.null := by
  refine ⟨?_, ?_, ?_, ?_, ?_⟩
  · intro b; simp [clean_value, isEmptyParam, h, coerceTyped]
  · intro s he; simp [clean_value, isEmptyParam, he, h, coerceTyped]
  · intro s he; simp [clean_value, isEmptyParam, he]
  · intro n; simp [clean_value, isEmptyParam, h, coerceTyped]
  · simp [clean_value, isEmptyParam]

theorem bool_coercion_truthiness_witness :
    lookupColumn "orders" "o_is_main_order" = Option.some SQLType.BOOL
    ∧ clean_value "orders" "o_is_main_order" (RawValue.bool true) = TypedValue.bool true
    ∧ clean_value "orders" "o_is_main_order" (RawValue.str "Y") = TypedValue.bool (isTruthyStr "Y")
    ∧ isTruthyStr "Y" = true
    ∧ clean_value "orders" "o_is_main_order" (RawValue.str "no") = TypedValue.bool (isTruthyStr "no")
    ∧ isTruthyStr "no" = false
    ∧ clean_value "orders" "o_is_main_order" (RawValue.str " ") = TypedValue.null
    ∧ clean_value "orders" "o_is_main_order" (RawValue.int 0) = TypedValue.bool (decide ((0 : Int) ≠ 0))
    ∧ clean_value "orders" "o_is_main_order" RawValue.none = TypedValue.null := by
  have h := bool_coercion_truthiness "orders" "o_is_main_order" (by decide)
  exact ⟨by decide, h.1 true, h.2.1 "Y" (by decide), by decide, h.2.1 "no" (by decide), by decide,
    h.2.2.1 " " (by decide), h.2.2.2.1 0, h.2.2.2.2⟩

/-- C10: calling `clean_value` with a column key not declared in the
table's schema (or with an unknown table) returns null instead of
raising: the failed `COLUMNS` lookup aborts the `try` block, the default
computation in the handler fails for the same reason, and the final bare
`except` returns `None`. -/
theorem unknown_column_null (t kk : String) (v : RawValue)
    (h : lookupColumn t kk = Option.none) :
    clean_value t kk v = TypedValue.null := by
  by_cases he : isEmptyParam v <;> simp [clean_value, he, h]

theorem unknown_column_null_witness :
    lookupColumn "orders" "not_a_column" = Option.none
    ∧ clean_value "orders" "not_a_column" (RawValue.str "x") = TypedValue.null
    ∧ lookupColumn "no_table" "plenty_id" = Option.none
    ∧ clean_value "no_table" "plenty_id" (RawValue.str "x") = TypedValue.null := by
  exact ⟨by decide, unknown_column_null "orders" "not_a_column" (RawValue.str "x") (by decide),
    by decide, unknown_column_null "no_table" "plenty_id" (RawValue.str "x") (by decide)⟩
